import Mathlib

/-!
Verification development for the mistcss code-generation pipeline.

The embedding models, faithfully to the TypeScript sources:
  - `src/core.ts`: `createFiles`, `createFile`, `getExtension`, `getTarget`;
  - the CLI driver (batch build, target validation, orphan cleanup with its
    `unlink` helper).

Conventions of the embedding:
  - JavaScript strings are Lean `String`s; the handful of string operations the
    code uses (`String.prototype.replace` with the concrete regexes appearing in
    the source, `path.basename(p, suffix)`) are given executable definitions
    over `String.data`.
  - A settled JavaScript promise is `Except String α`: `Except.ok` for a
    fulfilled promise, `Except.error` for a rejected one, the error payload
    being the message.  Filesystem outcomes (`fsPromises.writeFile`,
    `fsPromises.readFile`) are supplied as oracle functions so theorems
    quantify over every possible I/O behaviour.
  - The renderers (`renderers/react.js` etc.) and the parser are code outside
    the modelled core; they enter as parameters (a `Renderers` record of
    possibly-throwing functions and a `parseFn` oracle), and the schema type
    `Data` is a type parameter, exactly as `core.ts` treats it opaquely.
-/

namespace Mistcss

/-- The `Target` union type of `core.ts`:
`'react' | 'hono' | 'astro' | 'vue' | 'svelte'`. -/
inductive Target where
  | react
  | hono
  | astro
  | vue
  | svelte
  deriving DecidableEq, Repr

/-- The `Extension` union type of `core.ts`: `'.tsx' | '.astro' | '.svelte'`. -/
inductive Extension where
  | tsx
  | astro
  | svelte
  deriving DecidableEq, Repr

/-- The literal string each `Extension` member denotes. -/
def Extension.str : Extension → String
  | .tsx => ".tsx"
  | .astro => ".astro"
  | .svelte => ".svelte"

/-- Executable test that `suffix` is a suffix of `s` (JS `String.prototype.endsWith`). -/
def strEndsWith (s suffix : String) : Bool :=
  suffix.data.isSuffixOf s.data

/-- Drop the last `n` characters of `s`. -/
def strDropRight (s : String) (n : Nat) : String :=
  ⟨s.data.take (s.data.length - n)⟩

/-- JS `s.replace(/\.css$/, repl)`: if `s` ends with `".css"` the final four
characters are replaced by `repl`, otherwise `s` is returned unchanged.  This
is the path computation of `core.ts` line 56 and of the watch-mode unlink
handler. -/
def replaceCssSuffix (s repl : String) : String :=
  if strEndsWith s ".css" then strDropRight s 4 ++ repl else s

/-- The substring of `p` after its last `'/'` (the whole of `p` when it has
none): the basename step of Node's `path.basename` for paths without trailing
slashes, which is the only shape the pipeline feeds it. -/
def lastComponent (p : String) : String :=
  ⟨(p.data.reverse.takeWhile (fun c => c ≠ '/')).reverse⟩

/-- Number of characters of `s`. -/
def strLen (s : String) : Nat :=
  s.data.length

/-- Node `path.basename(p, suffix)`: the last path component, with `suffix`
stripped when it is a proper trailing part of that component (Node leaves the
component alone when it is equal to the suffix). -/
def basenameSuffix (p suffix : String) : String :=
  if lastComponent p = suffix then lastComponent p
  else if strEndsWith (lastComponent p) suffix then
    strDropRight (lastComponent p) (strLen suffix)
  else lastComponent p

/-- Embeds `getExtension` of `core.ts` (lines 70-83), the target→extension switch. -/
def getExtension : Target → Extension
  | .react => .tsx
  | .hono => .tsx
  | .astro => .astro
  | .vue => .tsx
  | .svelte => .svelte

/-- Embeds `getTarget` of `core.ts` (lines 85-100): the string switch returning a
`Target`, throwing `Error('Invalid target option')` on any other string. -/
def getTarget (target : String) : Except String Target :=
  if target = "react" then .ok .react
  else if target = "hono" then .ok .hono
  else if target = "astro" then .ok .astro
  else if target = "vue" then .ok .vue
  else if target = "svelte" then .ok .svelte
  else .error "Invalid target option"

/-- Returns `true` exactly when the `Except` is `ok` (the call did not throw). -/
def isOkB {α β : Type} : Except α β → Bool
  | .ok _ => true
  | .error _ => false

/-- The renderer modules imported by `core.ts`.  Each renderer may throw, so it
returns `Except String String`.  `reactRender` takes the optional boolean
third parameter (`Option Bool`, `none` when the call site omits it), matching
`render(name, data)` vs `render(name, data, true)`. -/
structure Renderers (Data : Type) where
  reactRender : String → Data → Option Bool → Except String String
  astroRender : String → Data → Except String String
  vueRender : String → Data → Except String String
  svelteRender : String → Data → Except String String

/-- The `switch (target)` of `createFile` (`core.ts` lines 39-55) dispatching
to the renderer for `target`: `react` calls `reactRender(name, data[0])`,
`hono` calls `reactRender(name, data[0], true)`, the rest call their own
renderer. -/
def renderFor {Data : Type} (R : Renderers Data) (target : Target)
    (name : String) (d : Data) : Except String String :=
  match target with
  | .react => R.reactRender name d none
  | .hono => R.reactRender name d (some true)
  | .astro => R.astroRender name d
  | .vue => R.vueRender name d
  | .svelte => R.svelteRender name d

deriving instance DecidableEq for Except

/-- Observable outcome of one `createFile` call (`core.ts` lines 29-68):
`logs` are the `console.error` lines emitted by its `catch` block, `written`
is the file the call wrote (path, contents) if any, and `settled` is how the
promise returned by `createFile` settles.  Because the body ends in
`return fsPromises.writeFile(...)` WITHOUT `await`, a rejection of the write
promise is adopted by `createFile`'s promise and is NOT caught by the
surrounding `try`/`catch`, so a write failure makes `settled` an error with no
log produced. -/
structure CreateFileResult where
  logs : List String
  written : Option (String × String)
  settled : Except String Unit
  deriving DecidableEq, Repr

/-- Embeds `createFile` of `core.ts` (lines 29-68).  `writeOutcome path contents`
is the oracle for how `fsPromises.writeFile(path, contents, { flush: true })`
settles.  `if (data[0])` is truthy exactly when the array is non-empty
(schemas are objects), i.e. when `data.head? = some d`. -/
def createFile {Data : Type} (R : Renderers Data)
    (writeOutcome : String → String → Except String Unit)
    (data : List Data) (mist : String) (target : Target) (ext : Extension) :
    CreateFileResult :=
  match data.head? with
  | none => { logs := [], written := none, settled := .ok () }
  | some d =>
    let name := basenameSuffix mist ".mist.css"
    match renderFor R target name d with
    | .error e =>
      { logs := ["Error " ++ mist ++ ": " ++ e], written := none, settled := .ok () }
    | .ok result =>
      let out := replaceCssSuffix mist ext.str
      match writeOutcome out result with
      | .ok _ => { logs := [], written := some (out, result), settled := .ok () }
      | .error e => { logs := [], written := none, settled := .error e }

/-- JS `Promise.all` on a list of already-settled unit promises: rejects with
the first rejection, otherwise fulfills. -/
def promiseAll : List (Except String Unit) → Except String Unit
  | [] => .ok ()
  | p :: ps =>
    match p with
    | .error e => .error e
    | .ok _ => promiseAll ps

/-- The value of `void createFile(...)` inside the `targets.map` callback of
`createFiles`: the callback's block body returns `undefined`, so the promise
collected into `promises` is a fulfilled unit promise whatever `createFile`'s
own promise does. -/
def voidDiscard (_r : CreateFileResult) : Except String Unit :=
  .ok ()

/-- Observable outcome of `createFiles` (`core.ts` lines 15-27): the
fire-and-forget per-target `createFile` results, and the settlement of the
promise `createFiles` itself returns
(`Promise.all(promises).then(() => { return })`). -/
structure CreateFilesResult where
  dispatched : List CreateFileResult
  settled : Except String Unit
  deriving DecidableEq, Repr

/-- Embeds `createFiles` of `core.ts` (lines 15-27). -/
def createFiles {Data : Type} (R : Renderers Data)
    (writeOutcome : String → String → Except String Unit)
    (data : List Data) (mist : String)
    (targets : List (Target × Extension)) : CreateFilesResult :=
  let results := targets.map (fun te => createFile R writeOutcome data mist te.1 te.2)
  { dispatched := results
    settled := (promiseAll (results.map voidDiscard)).map (fun _ => ()) }

/-- Drop the first `n` characters of `s`. -/
def strDrop (s : String) (n : Nat) : String :=
  ⟨s.data.drop n⟩

/-- The usage text printed by the CLI's `usage()` function. -/
def usageText : String :=
  "Usage: mistcss <directory> [options]\n  --watch, -w    Watch for changes\n  --target, -t   Render target (react, vue, astro, hono, svelte) [default: react]\n"

/-- Outcome of the CLI's target-validation loop: whether `process.exit` was
reached (and with which code), and the `console` lines printed on the way. -/
structure ValidateResult where
  exitCode : Option Nat
  logs : List String
  deriving DecidableEq, Repr

/-- The CLI's target-validation loop:
`target.forEach(t => { try { getTarget(t) } catch { console.error('Invalid render option'); usage(); process.exit(1) } })`.
`process.exit(1)` terminates the process at the first invalid entry. -/
def validateTargets : List String → ValidateResult
  | [] => { exitCode := none, logs := [] }
  | t :: ts =>
    match getTarget t with
    | .ok _ => validateTargets ts
    | .error _ =>
      { exitCode := some 1, logs := ["Invalid render option", usageText] }

/-- Observable outcome of the batch loop's per-file async callback
(the `cssFiles.map` body):
`logs` are the `console.error` lines (from the callback's own catch and from
`createFile`'s catch), `writes` the files written, `settled` how the
callback's promise settles, and `unhandledRejections` the rejection messages
of the `createFile` promises that were discarded by `void` inside
`createFiles` — nobody awaits or handles them, so they surface as unhandled
promise rejections carrying no file path. -/
structure ProcessFileResult where
  logs : List String
  writes : List (String × String)
  settled : Except String Unit
  unhandledRejections : List String
  deriving DecidableEq, Repr

/-- The per-file body of the batch build:
`try { const data = parse(await fsPromises.readFile(mist, 'utf8')); createFiles(data, mist, targetWithExt) } catch (e) { console.error(...) }`.
`readOutcome` is the oracle for `fsPromises.readFile(mist, 'utf8')` and
`parseFn` for the possibly-throwing `parse`.  The awaited read rejection and a
synchronous `parse` throw are caught and logged with the file's path; the
promise returned by `createFiles` is not awaited, so everything it discarded
stays unhandled. -/
def processFile {Data : Type} (R : Renderers Data)
    (readOutcome : String → Except String String)
    (parseFn : String → Except String (List Data))
    (writeOutcome : String → String → Except String Unit)
    (mist : String) (targets : List (Target × Extension)) : ProcessFileResult :=
  match readOutcome mist with
  | .error e =>
    { logs := ["Error " ++ mist ++ ": " ++ e], writes := [],
      settled := .ok (), unhandledRejections := [] }
  | .ok text =>
    match parseFn text with
    | .error e =>
      { logs := ["Error " ++ mist ++ ": " ++ e], writes := [],
        settled := .ok (), unhandledRejections := [] }
    | .ok data =>
      let r := createFiles R writeOutcome data mist targets
      { logs := (r.dispatched.map (fun c => c.logs)).flatten
        writes := r.dispatched.filterMap (fun c => c.written)
        settled := .ok ()
        unhandledRejections := r.dispatched.filterMap (fun c =>
          match c.settled with
          | .error e => some e
          | .ok _ => none) }

/-- The cleanup pass models the filesystem as the list of existing paths.
`cleanupGlob fs ext` is `globby(`+`**/*.mist.${ext}`+`)`: since `ext` itself
begins with a dot, the pattern's literal text is for example
`**/*.mist..tsx`, so a path matches only when its last component ends with
`".mist." ++ ext.str` — with the doubled dot. -/
def cleanupGlob (fs : List String) (ext : Extension) : List String :=
  fs.filter (fun p => strEndsWith (lastComponent p) (".mist." ++ ext.str))

/-- The characters of the regex `new RegExp(`+`.${ext}$`+`)` after its two
leading dots: the regex source is `"." ++ ext.str ++ "$"`, its first character
`'.'` is a wildcard, the leading `'.'` of `ext.str` is a second wildcard, and
the remaining characters (`"tsx"`, `"astro"` or `"svelte"`) are literals. -/
def extTail (ext : Extension) : String :=
  strDrop ext.str 1

/-- JS `file.replace(new RegExp(`+`.${ext}$`+`), '.css')` in the cleanup's
`unlink` helper.  The regex is two wildcards followed by `extTail ext`
anchored at the end, so it matches exactly when `file` ends with
`extTail ext` and has at least two more characters; the match (the last
`(extTail ext).length + 2` characters) is replaced by `".css"`. -/
def unlinkRegexReplace (file : String) (ext : Extension) : String :=
  if strEndsWith file (extTail ext)
      && decide ((extTail ext).data.length + 2 ≤ file.data.length) then
    strDropRight file ((extTail ext).data.length + 2) ++ ".css"
  else file

/-- The cleanup's `unlink(file, ext)` helper: it reconstructs `mist` from the
generated file's name and, when `mist` does NOT exist
(`!fs.existsSync(mist)`), calls `fsPromises.unlink(mist)` — on `mist` itself,
not on `file`.  The result is the path passed to `fsPromises.unlink`, `none`
when no unlink is attempted. -/
def unlink (fs : List String) (file : String) (ext : Extension) : Option String :=
  let mist := unlinkRegexReplace file ext
  if fs.contains mist then none else some mist

/-- All paths the cleanup pass passes to `fsPromises.unlink`: for every
configured target extension, every `cleanupGlob` match is fed to `unlink`. -/
def attemptedUnlinks (fs : List String)
    (targets : List (Target × Extension)) : List String :=
  (targets.map (fun te =>
    (cleanupGlob fs te.2).filterMap (fun f => unlink fs f te.2))).flatten

/-- The filesystem after the cleanup pass: an attempted unlink removes its
path when that path exists (unlinking a nonexistent path rejects with ENOENT
and removes nothing). -/
def afterCleanup (fs : List String)
    (targets : List (Target × Extension)) : List String :=
  fs.filter (fun p => !(attemptedUnlinks fs targets).contains p)

/-- Renderers over the trivial schema type that return the component name they
were handed: instantiating the parametric `createFile` with them exposes, in
the written file's contents, exactly the name `createFile` passes to a
renderer. -/
def captureRenderers : Renderers Unit where
  reactRender := fun n _ _ => .ok n
  astroRender := fun n _ => .ok n
  vueRender := fun n _ => .ok n
  svelteRender := fun n _ => .ok n

/-- A write oracle for which every `fsPromises.writeFile` fulfills. -/
def okWrite : String → String → Except String Unit :=
  fun _ _ => .ok ()

/-- Batch per-file step on a file that reads and parses fine (one schema) but
whose generated-file write rejects (for example with EACCES). -/
def failingWriteScenario : ProcessFileResult :=
  processFile captureRenderers (fun _ => .ok "")
    (fun _ => .ok [()])
    (fun _ _ => .error "EACCES: permission denied")
    "a.mist.css" [(Target.react, Extension.tsx)]

/-- Batch per-file step on a file whose read rejects. -/
def failingReadScenario : ProcessFileResult :=
  processFile captureRenderers (fun _ => .error "ENOENT: no such file")
    (fun _ => .ok ([] : List Unit))
    okWrite
    "b.mist.css" [(Target.react, Extension.tsx)]

/-- Helper: `Promise.all` over the `void`-discarded per-target promises of
`createFiles` always fulfills, whatever the discarded results were. -/
theorem promiseAll_map_void (l : List CreateFileResult) :
    promiseAll (l.map voidDiscard) = .ok () := by
  induction l with
  | nil => rfl
  | cons p ps ih => simpa [promiseAll, voidDiscard] using ih

/-- C6: `getExtension` is total on the five targets (it is a total Lean
function on `Target`), `react`, `hono` and `vue` map to one and the same
extension, `astro` to a second distinct one, and `svelte` to a third,
distinct from both. -/
theorem getExtension_stable_mapping :
    getExtension .react = getExtension .hono
    ∧ getExtension .vue = getExtension .react
    ∧ getExtension .astro ≠ getExtension .react
    ∧ getExtension .svelte ≠ getExtension .react
    ∧ getExtension .svelte ≠ getExtension .astro := by
  decide

/-- C8: for target `hono`, `createFile`'s renderer dispatch invokes the react
renderer with the boolean flavor flag `true`; for target `react` it invokes
the same renderer with the flag omitted; the name and schema arguments are the
same in both calls. -/
theorem renderFor_hono_is_react_flavored {Data : Type} (R : Renderers Data)
    (name : String) (d : Data) :
    renderFor R .hono name d = R.reactRender name d (some true)
    ∧ renderFor R .react name d = R.reactRender name d none :=
  ⟨rfl, rfl⟩

/-- C2: the outcome of `createFile` depends on the parsed data array only
through its first element `data[0]`: two arrays with the same head give
byte-identical logs, written file and settlement, for every renderer
implementation, write outcome, path and target — so schemas after the first
are never rendered and never affect the written file. -/
theorem createFile_uses_only_first_schema {Data : Type} (R : Renderers Data)
    (w : String → String → Except String Unit) (d₁ d₂ : List Data)
    (mist : String) (t : Target) (e : Extension)
    (h : d₁.head? = d₂.head?) :
    createFile R w d₁ mist t e = createFile R w d₂ mist t e := by
  unfold createFile
  rw [h]

/-- Witness for C2 at a concrete input: `[(), ()]` and `[()]` share their
head, and `createFile` gives the same result on both. -/
theorem createFile_uses_only_first_schema_ex :
    createFile captureRenderers okWrite [(), ()] "a.mist.css" .react .tsx
      = createFile captureRenderers okWrite [()] "a.mist.css" .react .tsx :=
  createFile_uses_only_first_schema captureRenderers okWrite
    [(), ()] [()] "a.mist.css" .react .tsx rfl

/-- C4: on an empty parsed data array, `createFile` writes nothing, logs
nothing and its promise fulfills, for every renderer implementation, write
oracle, path, target and extension. -/
theorem createFile_empty_data_silent {Data : Type} (R : Renderers Data)
    (w : String → String → Except String Unit) (mist : String)
    (t : Target) (e : Extension) :
    createFile R w [] mist t e
      = { logs := [], written := none, settled := .ok () } :=
  rfl

/-- C5: whenever `createFile`, run for target `t` with that target's
extension, writes a file for an input path ending in `.css`, the written path
is the input path with the trailing `.css` replaced by the target's
extension. -/
theorem createFile_written_path_swaps_css {Data : Type} (R : Renderers Data)
    (w : String → String → Except String Unit) (data : List Data)
    (mist : String) (t : Target) (p c : String)
    (hcss : strEndsWith mist ".css" = true)
    (hw : (createFile R w data mist t (getExtension t)).written = some (p, c)) :
    p = strDropRight mist 4 ++ (getExtension t).str := by
  cases data with
  | nil => simp [createFile] at hw
  | cons d ds =>
    unfold createFile at hw
    simp only [List.head?] at hw
    cases hr : renderFor R t (basenameSuffix mist ".mist.css") d with
    | error e => rw [hr] at hw; simp at hw
    | ok result =>
      rw [hr] at hw
      simp only [replaceCssSuffix, hcss, if_true] at hw
      cases hwr : w (strDropRight mist 4 ++ (getExtension t).str) result with
      | ok u => rw [hwr] at hw; simp at hw; exact hw.1.symm
      | error e => rw [hwr] at hw; simp at hw

/-- Witness for C5 at a concrete input: `a.mist.css` with target `react`
yields the path `a.mist.tsx`. -/
theorem createFile_written_path_swaps_css_ex :
    "a.mist.tsx" = strDropRight "a.mist.css" 4 ++ (getExtension .react).str :=
  createFile_written_path_swaps_css captureRenderers okWrite [()]
    "a.mist.css" .react "a.mist.tsx" "a" (by decide) (by decide)

/-- C7: `getTarget` succeeds exactly on the five strings `react`, `hono`,
`astro`, `vue`, `svelte` and throws on every other string; and whenever any
requested target string is one `getTarget` throws on, the CLI's validation
loop prints the usage text and calls `process.exit(1)`, a non-zero status. -/
theorem getTarget_valid_strings_and_cli_exit :
    (∀ s, isOkB (getTarget s) = true ↔
      (s = "react" ∨ s = "hono" ∨ s = "astro" ∨ s = "vue" ∨ s = "svelte"))
    ∧ (∀ ts s, s ∈ ts → isOkB (getTarget s) = false →
        (validateTargets ts).exitCode = some 1
        ∧ usageText ∈ (validateTargets ts).logs) := by
  constructor
  · intro s
    unfold getTarget isOkB
    split_ifs with h1 h2 h3 h4 h5 <;> simp_all
  · intro ts
    induction ts with
    | nil => intro s hs _; simp at hs
    | cons t ts ih =>
      intro s hs hbad
      cases hg : getTarget t with
      | ok tv =>
        rcases List.mem_cons.mp hs with rfl | hmem
        · rw [hg] at hbad; simp [isOkB] at hbad
        · simpa [validateTargets, hg] using ih s hmem hbad
      | error e =>
        simp [validateTargets, hg]

/-- Witness for C7 at concrete inputs: `react` is accepted, and a run asked
for target `bogus` exits with status 1 after printing the usage text. -/
theorem getTarget_valid_strings_and_cli_exit_ex :
    isOkB (getTarget "react") = true
    ∧ ((validateTargets ["bogus"]).exitCode = some 1
        ∧ usageText ∈ (validateTargets ["bogus"]).logs) :=
  ⟨(getTarget_valid_strings_and_cli_exit.1 "react").mpr (Or.inl rfl),
    getTarget_valid_strings_and_cli_exit.2 ["bogus"] "bogus" (by decide) (by decide)⟩

/-- C9: run with renderers that echo back their name argument, `createFile`
writes exactly `basenameSuffix mist ".mist.css"` as the file's contents — so
the component name handed to whichever renderer the target selects is Node's
`path.basename(mist, '.mist.css')`; moreover that function strips the
`.mist.css` suffix from the input's base name whenever the base name is the
suffix preceded by a non-empty stem. -/
theorem createFile_component_name_strips_suffix :
    (∀ mist t, (createFile captureRenderers okWrite [()] mist t (getExtension t)).written
        = some (replaceCssSuffix mist (getExtension t).str,
                basenameSuffix mist ".mist.css"))
    ∧ (∀ mist n, lastComponent mist = n ++ ".mist.css" → n ≠ "" →
        basenameSuffix mist ".mist.css" = n) := by
  constructor
  · intro mist t
    cases t <;> rfl
  · intro mist n hlc hn
    have hne : (n ++ ".mist.css" : String) ≠ ".mist.css" := by
      intro he
      apply hn
      have hlen := congrArg String.length he
      rw [String.length_append] at hlen
      have h0 : n.length = 0 := by omega
      apply String.ext
      have h0d : n.data.length = 0 := h0
      simpa using List.length_eq_zero.mp h0d
    have hends : strEndsWith (n ++ ".mist.css") ".mist.css" = true := by
      unfold strEndsWith
      rw [String.data_append]
      exact List.isSuffixOf_iff_suffix.mpr (List.suffix_append _ _)
    unfold basenameSuffix
    rw [hlc, if_neg hne]
    simp only [hends, if_true]
    apply String.ext
    show ((n ++ ".mist.css").data.take
        ((n ++ ".mist.css").data.length - strLen ".mist.css")) = n.data
    rw [String.data_append, List.length_append]
    show ((n.data ++ (".mist.css" : String).data).take
        (n.data.length + (".mist.css" : String).data.length
          - (".mist.css" : String).data.length)) = n.data
    rw [Nat.add_sub_cancel]
    exact List.take_left n.data _

/-- Witness for C9 at a concrete input: the component name for
`src/Button.mist.css` is `Button`. -/
theorem createFile_component_name_strips_suffix_ex :
    lastComponent "src/Button.mist.css" = "Button" ++ ".mist.css"
    ∧ basenameSuffix "src/Button.mist.css" ".mist.css" = "Button" :=
  ⟨by decide,
    createFile_component_name_strips_suffix.2 "src/Button.mist.css" "Button"
      (by decide) (by decide)⟩

/-- C10: the promise returned by `createFiles` fulfills for every renderer
implementation, write outcome, data array, path and target list: each
per-target `createFile` is dispatched with its result discarded by `void`, so
`Promise.all` awaits no write and no renderer or write failure can reach
`createFiles`' caller. -/
theorem createFiles_never_rejects {Data : Type} (R : Renderers Data)
    (w : String → String → Except String Unit) (data : List Data)
    (mist : String) (targets : List (Target × Extension)) :
    (createFiles R w data mist targets).settled = .ok () := by
  show Except.map (fun _ => ()) (promiseAll (List.map voidDiscard
    (targets.map (fun te => createFile R w data mist te.1 te.2)))) = .ok ()
  rw [promiseAll_map_void]
  rfl

/-- C1 (refuting evaluation): on a filesystem holding only the orphaned
generated file `a.mist.tsx` (its source `a.mist.css` was deleted), with the
react target configured, the cleanup pass leaves the filesystem unchanged —
the orphan is NOT removed.  Two independent slips are exhibited: the glob
pattern `**/*.mist..tsx` (the extension's own dot doubles the dot) matches no
generated file, so nothing is even examined; and the `unlink` helper, applied
directly to the generated file, passes the reconstructed — nonexistent, and
wrongly reconstructed — source path `a.mis.css` to `fsPromises.unlink`
instead of deleting the generated file itself. -/
theorem cleanup_leaves_orphan :
    afterCleanup ["a.mist.tsx"] [(Target.react, Extension.tsx)] = ["a.mist.tsx"]
    ∧ cleanupGlob ["a.mist.tsx"] Extension.tsx = []
    ∧ unlink ["a.mist.tsx"] "a.mist.tsx" Extension.tsx = some "a.mis.css" := by
  decide

/-- C3 (refuting evaluation): in the batch build's per-file step, a failure of
`fsPromises.writeFile` for `a.mist.css` produces NO `console.error` line at
all — in particular none identifying the path — and instead leaves an
unhandled promise rejection: `createFile` returns the write promise without
`await`, so the rejection bypasses its `catch`, and `createFiles` discards it
with `void`.  By contrast a read failure for `b.mist.css` is caught and
logged with the file's path, as the claim says. -/
theorem write_failure_unreported :
    failingWriteScenario.logs = []
    ∧ failingWriteScenario.unhandledRejections = ["EACCES: permission denied"]
    ∧ failingWriteScenario.writes = []
    ∧ failingReadScenario.logs = ["Error b.mist.css: ENOENT: no such file"]
    ∧ failingReadScenario.settled = .ok () := by
  decide

end Mistcss
